import Mathlib

/-!
Shallow embedding of the GlassFlow job-scheduling backend
(src/backend/server.py) and proofs about its business rules.

Time is modelled at minute granularity: an *instant* is the number of
minutes since the Unix epoch, in UTC (an `Int`).  A request-side Python
`datetime` additionally carries the timezone offset attached by the
client (`tzinfo`), in minutes; the document store (MongoDB) normalises
datetimes to UTC on insertion, so stored `appointment_time` values are
plain instants.  `datetime.replace(hour=0, minute=0, second=0,
microsecond=0)` keeps the `tzinfo`, so it truncates the *wall-clock*
reading (instant + offset) down to a multiple of a day and converts
back to an instant.
-/

/-- A Python timezone-aware `datetime`: the absolute instant (minutes
since the epoch, UTC) together with the attached utcoffset in minutes.
A naive datetime (no tzinfo) and a UTC datetime both have `offset = 0`. -/
structure DT where
  instant : Int
  offset : Int
deriving DecidableEq, Repr

/-- Minutes in one day. -/
def minutesPerDay : Int := 1440

/-- The wall-clock reading of a datetime in its own timezone. -/
def wallClock (t : DT) : Int := t.instant + t.offset

/-- `apt.replace(hour=0, minute=0, second=0, microsecond=0)` from
`create_job` / `update_job` / `get_first_stop_count`: truncate the
wall-clock reading to midnight of its own calendar day (the `tzinfo` is
kept), expressed as an instant. -/
def dayStart (t : DT) : Int :=
  (Int.fdiv (wallClock t) minutesPerDay) * minutesPerDay - t.offset

/-- `apt_date + timedelta(days=1)`. -/
def dayEnd (t : DT) : Int := dayStart t + minutesPerDay

/-- The UTC calendar day an instant falls on, as a day number since the
epoch. -/
def utcDay (i : Int) : Int := Int.fdiv i minutesPerDay

/-- Midnight (UTC) of the UTC calendar day of an instant.  This is the
day-window start the specification describes: "truncate to midnight"
evaluated in UTC. -/
def specDayStartUTC (i : Int) : Int := utcDay i * minutesPerDay

/-- A stored job document, restricted to the fields the verified rules
read or write.  `appointment_time` is the stored instant (MongoDB keeps
datetimes in UTC). -/
structure Job where
  job_id : String
  customer_name : String
  phone : String
  is_first_stop : Bool
  appointment_time : Option Int
  part_number : Option String
  distributor : Option String
  job_type : String
  status : String
  assigned_to : Option String
  created_by : String
  updated_at : Int
deriving DecidableEq, Repr

/-- The request body of `POST /api/jobs` (`JobCreate`), restricted to
the fields the verified rules read. -/
structure JobCreate where
  customer_name : String
  phone : String
  is_first_stop : Bool
  appointment_time : Option DT
  part_number : Option String
  distributor : Option String
  job_type : String
  status : String
  assigned_to : Option String
deriving DecidableEq, Repr

/-- The request body of `PATCH /api/jobs/job_id` (`JobUpdate`); `none`
means the field was not supplied (`exclude_unset=True`). -/
structure JobUpdate where
  customer_name : Option String
  phone : Option String
  is_first_stop : Option Bool
  appointment_time : Option DT
  part_number : Option String
  distributor : Option String
  job_type : Option String
  status : Option String
  assigned_to : Option String
deriving DecidableEq, Repr

/-- The update with every field unset. -/
def JobUpdate.empty : JobUpdate :=
  ⟨none, none, none, none, none, none, none, none, none⟩

/-- The client-facing rejections raised by the handlers
(`HTTPException`s), by their `detail`. -/
inductive ApiError where
  /-- 400 "Maximum 3 first stops already scheduled for this day" -/
  | capacityExceeded
  /-- 404 "Job not found" / "Distributor not found" -/
  | notFound
  /-- 400 "No fields to update" -/
  | noFields
  /-- 403 "Admin access required" -/
  | forbidden
  /-- 401 "Not authenticated" -/
  | notAuthenticated
  /-- an unexpected exception escaping the handler (500) -/
  | internalError
deriving DecidableEq, Repr

/-- The MongoDB filter `appointment_time: ge lo, lt hi` applied to a
possibly-missing stored datetime: a missing/null field never matches a
date range query. -/
def aptInRange (apt : Option Int) (lo hi : Int) : Bool :=
  match apt with
  | some t => decide (lo ≤ t) && decide (t < hi)
  | none => false

/-- `db.jobs.count_documents(is_first_stop: True, appointment_time:
ge day_start, lt day_end)` from `create_job` / `get_first_stop_count`. -/
def firstStopCountQuery (jobs : List Job) (lo hi : Int) : Nat :=
  (jobs.filter (fun j => j.is_first_stop && aptInRange j.appointment_time lo hi)).length

/-- The same count with `job_id: ne jid` added, from `update_job`. -/
def firstStopCountExcl (jobs : List Job) (lo hi : Int) (jid : String) : Nat :=
  (jobs.filter (fun j =>
    j.is_first_stop && !(j.job_id == jid) && aptInRange j.appointment_time lo hi)).length

/-- The job document `create_job` builds from the request before the
capacity check. -/
def buildJob (jid : String) (now : Int) (d : JobCreate) (creator : String) : Job :=
  { job_id := jid
    customer_name := d.customer_name
    phone := d.phone
    is_first_stop := d.is_first_stop
    appointment_time := d.appointment_time.map DT.instant
    part_number := d.part_number
    distributor := d.distributor
    job_type := d.job_type
    status := d.status
    assigned_to := d.assigned_to
    created_by := creator
    updated_at := now }

/-- `POST /api/jobs` (`create_job`), the persistence part: build the
document, run the first-stop capacity check when the request marks the
job as first stop and carries an appointment time, then insert. -/
def create_job (jobs : List Job) (jid : String) (now : Int) (creator : String)
    (d : JobCreate) : Except ApiError (List Job) :=
  match d.is_first_stop, d.appointment_time with
  | true, some apt =>
      if 3 ≤ firstStopCountQuery jobs (dayStart apt) (dayEnd apt) then
        Except.error ApiError.capacityExceeded
      else
        Except.ok (jobs ++ [buildJob jid now d creator])
  | true, none => Except.ok (jobs ++ [buildJob jid now d creator])
  | false, _ => Except.ok (jobs ++ [buildJob jid now d creator])

/-- Replace the first element satisfying `p` by its image under `f`
(`db.jobs.update_one`). -/
def updateFirst (p : α → Bool) (f : α → α) : List α → List α
  | [] => []
  | x :: xs => if p x then f x :: xs else x :: updateFirst p f xs

/-- Applying the `$set` of `update_job` to the matched document:
supplied fields overwrite, `updated_at` is refreshed. -/
def applyUpdate (u : JobUpdate) (now : Int) (j : Job) : Job :=
  { j with
    customer_name := u.customer_name.getD j.customer_name
    phone := u.phone.getD j.phone
    is_first_stop := u.is_first_stop.getD j.is_first_stop
    appointment_time :=
      match u.appointment_time with
      | some t => some t.instant
      | none => j.appointment_time
    part_number :=
      match u.part_number with
      | some s => some s
      | none => j.part_number
    distributor :=
      match u.distributor with
      | some s => some s
      | none => j.distributor
    job_type := u.job_type.getD j.job_type
    status := u.status.getD j.status
    assigned_to :=
      match u.assigned_to with
      | some s => some s
      | none => j.assigned_to
    updated_at := now }

/-- The appointment time the update capacity check uses:
`update_data.get("appointment_time") or current_job.get("appointment_time")`.
A stored value comes back from MongoDB as a naive UTC datetime, so it
carries offset 0. -/
def effApt (u : JobUpdate) (cur : Job) : Option DT :=
  match u.appointment_time with
  | some t => some t
  | none => cur.appointment_time.map (fun i => ⟨i, 0⟩)

/-- `PATCH /api/jobs/job_id` (`update_job`): reject empty updates,
404 on a missing job, run the capacity check exactly when the update
flips `is_first_stop` from false to true and an appointment time is
available, then apply the `$set`. -/
def update_job (jobs : List Job) (jid : String) (now : Int) (u : JobUpdate) :
    Except ApiError (List Job) :=
  if u = JobUpdate.empty then Except.error ApiError.noFields
  else
    match jobs.find? (fun j => j.job_id == jid) with
    | none => Except.error ApiError.notFound
    | some cur =>
      if (u.is_first_stop == some true) && !cur.is_first_stop &&
          (match effApt u cur with
           | some apt =>
               decide (3 ≤ firstStopCountExcl jobs (dayStart apt) (dayEnd apt) jid)
           | none => false) then Except.error ApiError.capacityExceeded
      else
        Except.ok (updateFirst (fun j => j.job_id == jid) (applyUpdate u now) jobs)

/-- `DELETE /api/jobs/job_id` (`delete_job`): admin only, 404 when no
document matches, otherwise delete the (first) matching document. -/
def delete_job (jobs : List Job) (role : String) (jid : String) :
    Except ApiError (List Job) :=
  if role ≠ "admin" then Except.error ApiError.forbidden
  else if (jobs.find? (fun j => j.job_id == jid)).isSome then
    Except.ok (jobs.eraseP (fun j => j.job_id == jid))
  else Except.error ApiError.notFound

/-- One request against the jobs collection. -/
inductive Op where
  | create (jid : String) (now : Int) (creator : String) (d : JobCreate)
  | update (jid : String) (now : Int) (u : JobUpdate)
  | delete (role : String) (jid : String)
deriving DecidableEq, Repr

/-- Run one request: a rejected request leaves the collection
unchanged (the handlers raise before writing). -/
def step (jobs : List Job) : Op → List Job
  | Op.create jid now creator d =>
      match create_job jobs jid now creator d with
      | Except.ok jobs2 => jobs2
      | Except.error _ => jobs
  | Op.update jid now u =>
      match update_job jobs jid now u with
      | Except.ok jobs2 => jobs2
      | Except.error _ => jobs
  | Op.delete role jid =>
      match delete_job jobs role jid with
      | Except.ok jobs2 => jobs2
      | Except.error _ => jobs

/-- Run a sequence of requests in order. -/
def execTrace (jobs : List Job) (ops : List Op) : List Job :=
  ops.foldl step jobs

/-- Whether a stored job is a first stop scheduled on UTC calendar day
`d`. -/
def fsOnDay (d : Int) (j : Job) : Bool :=
  j.is_first_stop &&
    (match j.appointment_time with
     | some i => utcDay i == d
     | none => false)

/-- Number of stored first-stop jobs whose appointment falls on UTC
calendar day `d`. -/
def firstStopsOnUtcDay (jobs : List Job) (d : Int) : Nat :=
  (jobs.filter (fsOnDay d)).length

/-- The specification's invariant: at most 3 first-stop jobs per UTC
calendar day. -/
def dayInvariant (jobs : List Job) : Prop :=
  ∀ d : Int, firstStopsOnUtcDay jobs d ≤ 3

/-- The response of `GET /api/jobs/first-stop-count`. -/
structure FirstStopCountResult where
  count : Nat
  max : Nat
  can_add : Bool
deriving DecidableEq, Repr

/-- `GET /api/jobs/first-stop-count` (`get_first_stop_count`):
`target_date` is the parsed `date` query parameter
(`datetime.fromisoformat`, which keeps the supplied offset; a trailing
`Z` is first rewritten to `+00:00`). -/
def get_first_stop_count (jobs : List Job) (target_date : DT) : FirstStopCountResult :=
  let day_start := dayStart target_date
  let day_end := dayEnd target_date
  let count := firstStopCountQuery jobs day_start day_end
  { count := count, max := 3, can_add := decide (count < 3) }

/-- Convert a day number since the Unix epoch to the proleptic
Gregorian calendar date (year, month, day) it denotes, following the
standard civil-from-days algorithm that `datetime` implements. -/
def civilFromDays (z0 : Int) : Int × Nat × Nat :=
  let z := z0 + 719468
  let era : Int := Int.fdiv z 146097
  let doe : Nat := (z - era * 146097).toNat
  let yoe : Nat := (doe - doe / 1460 + doe / 36524 - doe / 146096) / 365
  let y : Int := (yoe : Int) + era * 400
  let doy : Nat := doe - (365 * yoe + yoe / 4 - yoe / 100)
  let mp : Nat := (5 * doy + 2) / 153
  let d : Nat := doy - (153 * mp + 2) / 5 + 1
  let m : Nat := if mp < 10 then mp + 3 else mp - 9
  (if m ≤ 2 then y + 1 else y, m, d)

/-- Left-pad a digit string with zeros to width `k`. -/
def padZeros (k : Nat) (s : String) : String :=
  if s.length < k then String.mk (List.replicate (k - s.length) '0') ++ s else s

/-- The `YYYY-MM-DD` rendering used on both sides of the date
comparison in `get_daily_parts` (`strftime` on the stored datetime and
an `04d/02d/02d` format string on the target); modelled for CE years. -/
def mkDateStr (y : Int) (m d : Nat) : String :=
  padZeros 4 (toString y.toNat) ++ "-" ++ padZeros 2 (toString m) ++ "-" ++
    padZeros 2 (toString d)

/-- `apt_time.strftime` of a stored (UTC) datetime: the `YYYY-MM-DD`
string of its UTC calendar day. -/
def instantDateStr (i : Int) : String :=
  match civilFromDays (utcDay i) with
  | (y, m, d) => mkDateStr y m d

/-- A distributor document, restricted to the fields read here. -/
structure Distributor where
  distributor_id : String
  name : String
deriving DecidableEq, Repr

/-- One `by_distributor` group in the daily-parts response. -/
structure DistGroup where
  distributor_id : String
  distributor_name : String
  parts : List Job
deriving DecidableEq, Repr

/-- The response of `GET /api/parts/daily`. -/
structure DailyPartsResult where
  total_parts : Nat
  total_jobs : Nat
  distributor_count : Nat
  by_distributor : List DistGroup
  unassigned : List Job
deriving DecidableEq, Repr

/-- Python truthiness of `job.get("part_number")`: `None` and the empty
string are both falsy. -/
def partTruthy (p : Option String) : Bool :=
  match p with
  | some s => !(s == "")
  | none => false

/-- The MongoDB filter of `get_daily_parts`: `part_number` present and
non-null, `status` not `cancelled`. -/
def dailyPartsQueryFilter (j : Job) : Bool :=
  j.part_number.isSome && !(j.status == "cancelled")

/-- The date filter of `get_daily_parts`: the stored appointment's
`YYYY-MM-DD` string equals the target string. -/
def matchesDateStr (j : Job) (target : String) : Bool :=
  match j.appointment_time with
  | some i => instantDateStr i == target
  | none => false

/-- Append `j` to the group keyed `k`, creating the group at the end
when missing: the Python insertion-ordered `grouped` dict. -/
def insertGroup (g : List (String × List Job)) (k : String) (j : Job) :
    List (String × List Job) :=
  match g with
  | [] => [(k, [j])]
  | (k2, js) :: rest =>
      if k2 == k then (k2, js ++ [j]) :: rest else (k2, js) :: insertGroup rest k j

/-- One iteration of the grouping loop of `get_daily_parts`. -/
def groupStep (acc : List (String × List Job) × List Job) (j : Job) :
    List (String × List Job) × List Job :=
  match j.distributor with
  | some dist => (insertGroup acc.1 dist j, acc.2)
  | none => (acc.1, acc.2 ++ [j])

/-- The grouping loop of `get_daily_parts`: partition the part-carrying
jobs by distributor, keeping the unassigned ones apart. -/
def groupJobs (l : List Job) : List (String × List Job) × List Job :=
  l.foldl groupStep ([], [])

/-- `distributor_map.get(dist_id, "Unknown")`. -/
def distName (ds : List Distributor) (did : String) : String :=
  match ds.find? (fun d => d.distributor_id == did) with
  | some d => d.name
  | none => "Unknown"

/-- `GET /api/parts/daily` (`get_daily_parts`) for a target date given
by its parsed `(year, month, day)` components: select non-cancelled
jobs with a non-null `part_number`, keep those whose appointment date
string matches the target, drop empty-string part numbers, and group
the rest by distributor. -/
def get_daily_parts (jobs : List Job) (ds : List Distributor)
    (year month day : Nat) : DailyPartsResult :=
  let all_jobs := jobs.filter dailyPartsQueryFilter
  let target_date_str := mkDateStr year month day
  let jobsOnDate := all_jobs.filter (fun j => matchesDateStr j target_date_str)
  let jobs_with_parts := jobsOnDate.filter (fun j => partTruthy j.part_number)
  let grouped := groupJobs jobs_with_parts
  { total_parts := jobs_with_parts.length
    total_jobs := jobsOnDate.length
    distributor_count := grouped.1.length + (if grouped.2.isEmpty then 0 else 1)
    by_distributor := grouped.1.map (fun g => ⟨g.1, distName ds g.1, g.2⟩)
    unassigned := grouped.2 }

/-- A `user_sessions` document. -/
structure Session where
  user_id : String
  session_token : String
  expires_at : Int
  created_at : Int
deriving DecidableEq, Repr

/-- A `users` document, restricted to the fields read here. -/
structure AuthUser where
  user_id : String
  email : String
  name : String
  role : String
  push_token : Option String
deriving DecidableEq, Repr

/-- `get_current_user`: resolve the presented token (from the
`Authorization` header or the cookie; `none` when both are absent) to a
user, returning `none` on a missing token, an unknown token, an expired
session, or a session whose user record is gone. -/
def get_current_user (users : List AuthUser) (sessions : List Session)
    (tok : Option String) (now : Int) : Option AuthUser :=
  match tok with
  | none => none
  | some t =>
    match sessions.find? (fun s => s.session_token == t) with
    | none => none
    | some s =>
      if s.expires_at < now then none
      else users.find? (fun u => u.user_id == s.user_id)

/-- `require_auth`: 401 "Not authenticated" exactly when
`get_current_user` comes back empty. -/
def require_auth (users : List AuthUser) (sessions : List Session)
    (tok : Option String) (now : Int) : Except ApiError AuthUser :=
  match get_current_user users sessions tok now with
  | some u => Except.ok u
  | none => Except.error ApiError.notAuthenticated

/-- The fixed session lifetime of `create_session`:
`timedelta(days=7)`, in minutes. -/
def sessionLifetime : Int := 7 * 1440

/-- `POST /api/auth/session` (`create_session`), after the external
identity provider returned `(email, name, session_token)`: reuse the
user with that email or create one with the fresh id, then store the
session with a 7-day expiry. -/
def create_session (users : List AuthUser) (sessions : List Session)
    (email name tok freshId : String) (now : Int) :
    List AuthUser × List Session :=
  match users.find? (fun u => u.email == email) with
  | some u =>
      (users, sessions ++ [⟨u.user_id, tok, now + sessionLifetime, now⟩])
  | none =>
      (users ++ [⟨freshId, email, name, "technician", none⟩],
       sessions ++ [⟨freshId, tok, now + sessionLifetime, now⟩])

/-- Every stored session points at an existing user.  This holds in
every reachable state: `create_session` inserts the user before the
session and no endpoint deletes users. -/
def sessionsRefUsers (users : List AuthUser) (sessions : List Session) : Prop :=
  ∀ s ∈ sessions, ∃ u ∈ users, u.user_id = s.user_id

/-- An in-app notification document, restricted to the fields the
verified rules write. -/
structure Notification where
  user_id : String
  title : String
  body : String
  read : Bool
deriving DecidableEq, Repr

/-- Word-wise capitalisation, as Python `str.title` on the
space-separated job type. -/
def titleCase (s : String) : String :=
  String.intercalate " " ((s.splitOn " ").map String.capitalize)

/-- `apt_time.hour`: the wall-clock hour of the datetime in its own
timezone. -/
def hourOfDay (t : DT) : Int :=
  Int.fdiv (Int.emod (wallClock t) minutesPerDay) 60

/-- The `appointment_str` suffix of the new-job notification body. -/
def appointmentStr (apt : Option DT) : String :=
  match apt with
  | none => ""
  | some t => if hourOfDay t < 12 then " - Today 9-12 AM" else " - Today 1-4 PM"

/-- The new-job notification title. -/
def newJobTitle : String := "🚗 New Job Added"

/-- The new-job notification body. -/
def newJobBody (d : JobCreate) : String :=
  d.customer_name ++ " - " ++ titleCase (d.job_type.replace "_" " ") ++
    appointmentStr d.appointment_time

/-- `create_notification_for_all_users`: build one in-app notification
per (non-excluded) user, insert them all with a single synchronous
`insert_many` — whose failure propagates to the caller — and collect
the push tokens handed to the detached `send_push_notifications` task.
`insertOk` is the outcome of the `insert_many` call; no insert happens
(and none can fail) when there is no recipient. -/
def create_notification_for_all_users (users : List AuthUser)
    (title body : String) (excl : Option String) (insertOk : Bool) :
    Except ApiError (List Notification × List String) :=
  let recipients := users.filter (fun u =>
    match excl with
    | some e => !(u.user_id == e)
    | none => true)
  let notifs : List Notification :=
    recipients.map (fun u => ⟨u.user_id, title, body, false⟩)
  let tokens := recipients.filterMap AuthUser.push_token
  if notifs.isEmpty then Except.ok ([], tokens)
  else if insertOk then Except.ok (notifs, tokens)
  else Except.error ApiError.internalError

/-- The full `POST /api/jobs` request: the persistence part of
`create_job` followed by the awaited, un-guarded
`create_notification_for_all_users` (no `exclude_user_id`).  `pushOk`
is the outcome of the detached push-delivery task; the handler never
inspects it. -/
def createJobRequest (jobs : List Job) (users : List AuthUser)
    (notifs : List Notification) (jid : String) (now : Int) (creator : String)
    (d : JobCreate) (insertOk pushOk : Bool) :
    Except ApiError (List Job × List Notification) :=
  match create_job jobs jid now creator d with
  | Except.error e => Except.error e
  | Except.ok jobs2 =>
    match create_notification_for_all_users users newJobTitle (newJobBody d)
        none insertOk with
    | Except.error e => Except.error e
    | Except.ok (newNotifs, _tokens) => Except.ok (jobs2, notifs ++ newNotifs)

/-- A `katyshop_jobs` document, restricted to the fields read here. -/
structure KatyshopJob where
  job_id : String
  vehicle_year : String
  vehicle_model : String
  part_number : String
  status : String
  created_by : String
  updated_at : Int
deriving DecidableEq, Repr

/-- The request body of `PATCH /api/katyshop/jobs/job_id`
(`KatyshopJobUpdate`), restricted to the fields read here; `None`
valued fields are dropped before the `$set`. -/
structure KatyshopJobUpdate where
  vehicle_year : Option String
  vehicle_model : Option String
  status : Option String
deriving DecidableEq, Repr

/-- The `$set` of `update_katyshop_job`. -/
def applyKatyshopUpdate (u : KatyshopJobUpdate) (now : Int) (j : KatyshopJob) :
    KatyshopJob :=
  { j with
    vehicle_year := u.vehicle_year.getD j.vehicle_year
    vehicle_model := u.vehicle_model.getD j.vehicle_model
    status := u.status.getD j.status
    updated_at := now }

/-- `PATCH /api/katyshop/jobs/job_id` (`update_katyshop_job`): 404 on a
missing job, apply the update, and when the update sets the status to
`completed` from a non-completed status, create a completion
notification for the creator inside a `try/except` block that logs and
swallows every failure — an in-app insertion failure (`insertOk =
false`) or a push failure (`pushOk = false`) never reaches the caller. -/
def update_katyshop_job (kjobs : List KatyshopJob) (notifs : List Notification)
    (jid : String) (u : KatyshopJobUpdate) (now : Int) (insertOk pushOk : Bool) :
    Except ApiError (List KatyshopJob × List Notification) :=
  match kjobs.find? (fun j => j.job_id == jid) with
  | none => Except.error ApiError.notFound
  | some existing =>
    let kjobs2 := updateFirst (fun j => j.job_id == jid) (applyKatyshopUpdate u now) kjobs
    let notifs2 :=
      if u.status == some "completed" && !(existing.status == "completed") then
        if insertOk then
          notifs ++ [⟨existing.created_by, "Katyshop Job Completed",
            existing.vehicle_year ++ " " ++ existing.vehicle_model ++
              " is ready - Completed by Sina", false⟩]
        else notifs
      else notifs
    Except.ok (kjobs2, notifs2)

/-- `DELETE /api/distributors/distributor_id` (`delete_distributor`):
404 when no distributor matches (and nothing else runs); otherwise
delete it and null out the `distributor` field of every job that
referenced it (`update_many` with a single-field `$set`). -/
def delete_distributor (ds : List Distributor) (jobs : List Job) (did : String) :
    Except ApiError (List Distributor × List Job) :=
  if (ds.find? (fun d => d.distributor_id == did)).isSome then
    Except.ok (ds.eraseP (fun d => d.distributor_id == did),
      jobs.map (fun j =>
        if j.distributor == some did then { j with distributor := none } else j))
  else Except.error ApiError.notFound

/-- The stored job ids are pairwise distinct (creation draws fresh
UUIDs). -/
def NodupIds (jobs : List Job) : Prop := (jobs.map Job.job_id).Nodup

/-- No stored job already carries this id. -/
def FreshId (jobs : List Job) (jid : String) : Prop := ∀ j ∈ jobs, j.job_id ≠ jid

/-- The supplied datetime, when present, carries UTC offset 0 (a naive
or `Z`-suffixed payload). -/
def OffsetZero : Option DT → Prop
  | some t => t.offset = 0
  | none => True

instance (o : Option DT) : Decidable (OffsetZero o) :=
  match o with
  | some t => inferInstanceAs (Decidable (t.offset = 0))
  | none => inferInstanceAs (Decidable True)

instance (jobs : List Job) (jid : String) : Decidable (FreshId jobs jid) :=
  inferInstanceAs (Decidable (∀ j ∈ jobs, j.job_id ≠ jid))

/-- The conservative requests under which the daily cap is actually
enforced by the handlers: creation uses a fresh id, every supplied
appointment time is in UTC (offset 0, as a naive or `Z`-suffixed
payload), and no update sets the appointment time of a job currently
marked as a first stop unless the same update turns the flag off. -/
def SafeOp (jobs : List Job) : Op → Prop
  | Op.create jid _ _ d =>
      FreshId jobs jid ∧ OffsetZero d.appointment_time
  | Op.update jid _ u =>
      OffsetZero u.appointment_time ∧
      (u.appointment_time ≠ none →
        ∀ cur, jobs.find? (fun j => j.job_id == jid) = some cur →
          cur.is_first_stop = true → u.is_first_stop = some false)
  | Op.delete _ _ => True

/-- A request sequence every element of which is conservative in the
state it executes in. -/
inductive SafeTrace : List Job → List Op → Prop where
  | nil (jobs : List Job) : SafeTrace jobs []
  | cons (jobs : List Job) (op : Op) (ops : List Op) :
      SafeOp jobs op → SafeTrace (step jobs op) ops → SafeTrace jobs (op :: ops)

lemma fdiv_eq_ediv_1440 (i : Int) : Int.fdiv i 1440 = i / 1440 :=
  Int.fdiv_eq_ediv i (by norm_num)

lemma aptInRange_day (i D : Int) :
    aptInRange (some i) (D * minutesPerDay) (D * minutesPerDay + minutesPerDay)
      = (utcDay i == D) := by
  simp only [aptInRange, utcDay, minutesPerDay, fdiv_eq_ediv_1440]
  rw [Bool.eq_iff_iff]
  simp only [Bool.and_eq_true, decide_eq_true_eq, beq_iff_eq]
  omega

lemma dayStart_offsetZero (t : DT) (h : t.offset = 0) :
    dayStart t = utcDay t.instant * minutesPerDay := by
  simp [dayStart, wallClock, utcDay, h]

lemma firstStopCountQuery_eq_day (jobs : List Job) (t : DT) (h : t.offset = 0) :
    firstStopCountQuery jobs (dayStart t) (dayEnd t)
      = firstStopsOnUtcDay jobs (utcDay t.instant) := by
  unfold firstStopCountQuery firstStopsOnUtcDay
  congr 1
  apply List.filter_congr
  intro j _
  rw [dayEnd, dayStart_offsetZero t h]
  unfold fsOnDay
  cases ha : j.appointment_time with
  | none => simp [aptInRange]
  | some i => rw [aptInRange_day]

lemma firstStopCountExcl_eq_query (jobs : List Job) (lo hi : Int) (jid : String)
    (h : ∀ j ∈ jobs, j.job_id = jid → j.is_first_stop = false) :
    firstStopCountExcl jobs lo hi jid = firstStopCountQuery jobs lo hi := by
  unfold firstStopCountExcl firstStopCountQuery
  congr 1
  apply List.filter_congr
  intro j hj
  by_cases hfs : j.is_first_stop = true
  · have hne : ¬ j.job_id = jid := by
      intro he
      rw [h j hj he] at hfs
      exact Bool.false_ne_true hfs
    simp [hfs, hne]
  · rw [Bool.not_eq_true] at hfs
    simp [hfs]

lemma length_filter_append_one (l : List α) (x : α) (p : α → Bool) :
    ((l ++ [x]).filter p).length
      = (l.filter p).length + (if p x then 1 else 0) := by
  rw [List.filter_append]
  by_cases h : p x = true <;> simp [List.filter_cons, h]

lemma updateFirst_filter_length (p q : α → Bool) (f : α → α) (l : List α) (cur : α)
    (h : l.find? p = some cur) :
    ((updateFirst p f l).filter q).length + (if q cur then 1 else 0)
      = (l.filter q).length + (if q (f cur) then 1 else 0) := by
  induction l with
  | nil => simp at h
  | cons x xs ih =>
    by_cases hp : p x = true
    · rw [List.find?_cons_of_pos _ hp] at h
      have hx : x = cur := Option.some.inj h
      subst hx
      unfold updateFirst
      rw [if_pos hp, List.filter_cons, List.filter_cons]
      by_cases h1 : q x = true <;> by_cases h2 : q (f x) = true <;>
        simp [h1, h2]
    · rw [List.find?_cons_of_neg _ hp] at h
      unfold updateFirst
      rw [if_neg hp, List.filter_cons, List.filter_cons]
      have hih := ih h
      by_cases h1 : q x = true <;> simp [h1] <;> omega

lemma updateFirst_map_eq (p : α → Bool) (f : α → α) (g : α → β) (l : List α)
    (h : ∀ x, g (f x) = g x) :
    (updateFirst p f l).map g = l.map g := by
  induction l with
  | nil => rfl
  | cons x xs ih =>
    unfold updateFirst
    by_cases hp : p x = true <;> simp [hp, h, ih]

lemma eraseP_filter_length_le (p q : α → Bool) (l : List α) :
    ((l.eraseP p).filter q).length ≤ (l.filter q).length :=
  List.Sublist.length_le (List.Sublist.filter q (List.eraseP_sublist l))

lemma nodupIds_unique (jobs : List Job) (h : NodupIds jobs) (j k : Job)
    (hj : j ∈ jobs) (hk : k ∈ jobs) (he : j.job_id = k.job_id) : j = k :=
  List.inj_on_of_nodup_map h hj hk he
lemma fsOnDay_iff (d : Int) (j : Job) :
    fsOnDay d j = true ↔
      j.is_first_stop = true ∧ ∃ i, j.appointment_time = some i ∧ utcDay i = d := by
  unfold fsOnDay
  cases ha : j.appointment_time with
  | none => simp [ha]
  | some i => simp [ha, beq_iff_eq]

lemma nodupIds_append (jobs : List Job) (j : Job)
    (hn : NodupIds jobs) (hfresh : FreshId jobs j.job_id) :
    NodupIds (jobs ++ [j]) := by
  unfold NodupIds at hn ⊢
  rw [List.map_append, List.nodup_append]
  refine ⟨hn, List.nodup_singleton _, ?_⟩
  intro a ha hb
  simp only [List.map_cons, List.map_nil, List.mem_singleton] at hb
  subst hb
  obtain ⟨x, hx, hxe⟩ := List.mem_map.mp ha
  exact hfresh x hx hxe

lemma step_create_preserves (jobs : List Job) (jid : String) (now : Int)
    (creator : String) (d : JobCreate)
    (hn : NodupIds jobs) (hinv : dayInvariant jobs)
    (hs : SafeOp jobs (Op.create jid now creator d)) :
    NodupIds (step jobs (Op.create jid now creator d)) ∧
      dayInvariant (step jobs (Op.create jid now creator d)) := by
  obtain ⟨hfresh, hoff⟩ := hs
  cases hres : create_job jobs jid now creator d with
  | error e =>
    simp only [step, hres]
    exact ⟨hn, hinv⟩
  | ok jobs2 =>
    simp only [step, hres]
    have hjid : (buildJob jid now d creator).job_id = jid := rfl
    have hnd2 : NodupIds (jobs ++ [buildJob jid now d creator]) :=
      nodupIds_append jobs _ hn (by rw [hjid]; exact hfresh)
    have hcnt : d.is_first_stop = true → ∀ t, d.appointment_time = some t →
        firstStopsOnUtcDay jobs (utcDay t.instant) < 3 := by
      intro hfs t hapt
      have h0 : t.offset = 0 := by rw [hapt] at hoff; exact hoff
      simp only [create_job, hfs, hapt] at hres
      by_cases hc : 3 ≤ firstStopCountQuery jobs (dayStart t) (dayEnd t)
      · rw [if_pos hc] at hres; exact absurd hres (by simp)
      · rw [firstStopCountQuery_eq_day jobs t h0] at hc
        omega
    have hjobs2 : jobs2 = jobs ++ [buildJob jid now d creator] := by
      cases hfs : d.is_first_stop
      · cases hapt : d.appointment_time <;>
          simp only [create_job, hfs, hapt] at hres <;>
          exact (Except.ok.inj hres).symm
      · cases hapt : d.appointment_time with
        | none =>
          simp only [create_job, hfs, hapt] at hres
          exact (Except.ok.inj hres).symm
        | some t =>
          simp only [create_job, hfs, hapt] at hres
          by_cases hc : 3 ≤ firstStopCountQuery jobs (dayStart t) (dayEnd t)
          · rw [if_pos hc] at hres; exact absurd hres (by simp)
          · rw [if_neg hc] at hres; exact (Except.ok.inj hres).symm
    subst hjobs2
    refine ⟨hnd2, ?_⟩
    intro D
    unfold firstStopsOnUtcDay
    rw [length_filter_append_one]
    by_cases hD : fsOnDay D (buildJob jid now d creator) = true
    · obtain ⟨hfs, i, hi, hiD⟩ := (fsOnDay_iff D _).mp hD
      have hfs2 : d.is_first_stop = true := hfs
      obtain ⟨t, hapt, hti⟩ : ∃ t, d.appointment_time = some t ∧ t.instant = i := by
        have hmap : d.appointment_time.map DT.instant = some i := hi
        cases hapt : d.appointment_time with
        | none => rw [hapt] at hmap; exact absurd hmap (by simp)
        | some t => rw [hapt] at hmap; exact ⟨t, rfl, Option.some.inj hmap⟩
      have hlt := hcnt hfs2 t hapt
      rw [hti, hiD] at hlt
      have hle := hinv D
      unfold firstStopsOnUtcDay at hlt hle
      rw [hD, if_pos rfl]
      omega
    · rw [if_neg hD]
      have hle := hinv D
      unfold firstStopsOnUtcDay at hle
      omega
lemma step_delete_preserves (jobs : List Job) (role jid : String)
    (hn : NodupIds jobs) (hinv : dayInvariant jobs) :
    NodupIds (step jobs (Op.delete role jid)) ∧
      dayInvariant (step jobs (Op.delete role jid)) := by
  cases hres : delete_job jobs role jid with
  | error e =>
    simp only [step, hres]
    exact ⟨hn, hinv⟩
  | ok jobs2 =>
    simp only [step, hres]
    have hjobs2 : jobs2 = jobs.eraseP (fun j => j.job_id == jid) := by
      unfold delete_job at hres
      by_cases hr : role ≠ "admin"
      · rw [if_pos hr] at hres; exact absurd hres (by simp)
      · rw [if_neg hr] at hres
        by_cases hf : (jobs.find? (fun j => j.job_id == jid)).isSome
        · rw [if_pos hf] at hres; exact (Except.ok.inj hres).symm
        · rw [if_neg hf] at hres; exact absurd hres (by simp)
    subst hjobs2
    constructor
    · exact List.Nodup.sublist (List.Sublist.map Job.job_id (List.eraseP_sublist jobs)) hn
    · intro D
      have := hinv D
      unfold firstStopsOnUtcDay at this ⊢
      have hle := eraseP_filter_length_le (fun j => j.job_id == jid) (fsOnDay D) jobs
      omega
lemma applyUpdate_job_id (u : JobUpdate) (now : Int) (j : Job) :
    (applyUpdate u now j).job_id = j.job_id := rfl

lemma find?_job_id (jobs : List Job) (jid : String) (cur : Job)
    (hfind : jobs.find? (fun j => j.job_id == jid) = some cur) :
    cur ∈ jobs ∧ cur.job_id = jid := by
  refine ⟨List.mem_of_find?_eq_some hfind, ?_⟩
  have := List.find?_some hfind
  simpa using this

lemma step_update_preserves (jobs : List Job) (jid : String) (now : Int)
    (u : JobUpdate)
    (hn : NodupIds jobs) (hinv : dayInvariant jobs)
    (hs : SafeOp jobs (Op.update jid now u)) :
    NodupIds (step jobs (Op.update jid now u)) ∧
      dayInvariant (step jobs (Op.update jid now u)) := by
  obtain ⟨hoff, hsafe⟩ := hs
  cases hres : update_job jobs jid now u with
  | error e =>
    simp only [step, hres]
    exact ⟨hn, hinv⟩
  | ok jobs2 =>
    simp only [step, hres]
    unfold update_job at hres
    by_cases hemp : u = JobUpdate.empty
    · rw [if_pos hemp] at hres; exact absurd hres (by simp)
    rw [if_neg hemp] at hres
    cases hfind : jobs.find? (fun j => j.job_id == jid) with
    | none =>
      simp only [hfind] at hres
      exact absurd hres (by simp)
    | some cur =>
      simp only [hfind] at hres
      obtain ⟨hmem, hcurid⟩ := find?_job_id jobs jid cur hfind
      by_cases hcap : ((u.is_first_stop == some true) && !cur.is_first_stop &&
          (match effApt u cur with
           | some apt =>
               decide (3 ≤ firstStopCountExcl jobs (dayStart apt) (dayEnd apt) jid)
           | none => false)) = true
      · rw [if_pos hcap] at hres; exact absurd hres (by simp)
      rw [if_neg hcap] at hres
      have hjobs2 : jobs2 = updateFirst (fun j => j.job_id == jid) (applyUpdate u now) jobs :=
        (Except.ok.inj hres).symm
      subst hjobs2
      constructor
      · unfold NodupIds
        rw [updateFirst_map_eq _ _ _ _ (applyUpdate_job_id u now)]
        exact hn
      intro D
      have heq := updateFirst_filter_length (fun j => j.job_id == jid) (fsOnDay D)
        (applyUpdate u now) jobs cur hfind
      have hle := hinv D
      unfold firstStopsOnUtcDay at hle ⊢
      by_cases hD : fsOnDay D (applyUpdate u now cur) = true
      · -- the updated document is a first stop on day D
        obtain ⟨hfs2, i2, hi2, hiD⟩ := (fsOnDay_iff D _).mp hD
        by_cases hcur : cur.is_first_stop = true
        · -- the job was already a first stop: the safety condition rules
          -- out an appointment change, so its day contribution is unchanged
          have huapt : u.appointment_time = none := by
            cases hua : u.appointment_time with
            | none => rfl
            | some t =>
              have huf := hsafe (by simp [hua]) cur hfind hcur
              have h2 : (applyUpdate u now cur).is_first_stop = false := by
                simp [applyUpdate, huf]
              rw [h2] at hfs2
              exact absurd hfs2 (by simp)
          have hsame : (applyUpdate u now cur).appointment_time = cur.appointment_time := by
            simp [applyUpdate, huapt]
          have hcurD : fsOnDay D cur = true := by
            rw [fsOnDay_iff]
            exact ⟨hcur, i2, by rw [← hsame]; exact hi2, hiD⟩
          rw [hD, hcurD] at heq
          simp at heq
          omega
        · -- the flag was flipped on: the capacity check ran and passed
          rw [Bool.not_eq_true] at hcur
          have hflip : u.is_first_stop = some true := by
            cases hub : u.is_first_stop with
            | none =>
              have h2 : (applyUpdate u now cur).is_first_stop = false := by
                simp [applyUpdate, hub, hcur]
              rw [h2] at hfs2
              exact absurd hfs2 (by simp)
            | some b =>
              cases b
              · have h2 : (applyUpdate u now cur).is_first_stop = false := by
                  simp [applyUpdate, hub]
                rw [h2] at hfs2
                exact absurd hfs2 (by simp)
              · rfl
          -- the third conjunct of the check must have come out false
          have hmatch : (match effApt u cur with
              | some apt =>
                  decide (3 ≤ firstStopCountExcl jobs (dayStart apt) (dayEnd apt) jid)
              | none => false) = false := by
            by_contra hne
            rw [Bool.not_eq_false] at hne
            apply hcap
            simp [hflip, hcur, hne]
          -- the effective appointment is exactly the updated document's one
          obtain ⟨apt, happt, hoff0, hinst⟩ :
              ∃ apt, effApt u cur = some apt ∧ apt.offset = 0 ∧ apt.instant = i2 := by
            cases hua : u.appointment_time with
            | some t =>
              refine ⟨t, by simp [effApt, hua], by rw [hua] at hoff; exact hoff, ?_⟩
              have h2 : (applyUpdate u now cur).appointment_time = some t.instant := by
                simp [applyUpdate, hua]
              rw [h2] at hi2
              exact Option.some.inj hi2
            | none =>
              have hsame : (applyUpdate u now cur).appointment_time = cur.appointment_time := by
                simp [applyUpdate, hua]
              rw [hsame] at hi2
              exact ⟨⟨i2, 0⟩, by simp [effApt, hua, hi2], rfl, rfl⟩
          rw [happt] at hmatch
          simp only [decide_eq_false_iff_not, not_le] at hmatch
          -- rewrite the excluded count as the plain day count
          have hnofs : ∀ j ∈ jobs, j.job_id = jid → j.is_first_stop = false := by
            intro j hj hjeq
            have hj2 : j = cur := nodupIds_unique jobs hn j cur hj hmem (by rw [hjeq, hcurid])
            rw [hj2, hcur]
          rw [firstStopCountExcl_eq_query jobs _ _ jid hnofs,
            firstStopCountQuery_eq_day jobs apt hoff0, hinst, hiD] at hmatch
          unfold firstStopsOnUtcDay at hmatch
          have hcurD : fsOnDay D cur = false := by
            unfold fsOnDay
            rw [hcur]
            simp
          rw [hD, hcurD] at heq
          simp at heq
          omega
      · rw [Bool.not_eq_true] at hD
        rw [hD] at heq
        simp only [if_neg Bool.false_ne_true] at heq
        by_cases hcurD : fsOnDay D cur = true
        · rw [hcurD] at heq
          simp at heq
          omega
        · rw [Bool.not_eq_true] at hcurD
          rw [hcurD] at heq
          simp only [if_neg Bool.false_ne_true] at heq
          omega
lemma step_preserves (jobs : List Job) (op : Op)
    (hn : NodupIds jobs) (hinv : dayInvariant jobs) (hs : SafeOp jobs op) :
    NodupIds (step jobs op) ∧ dayInvariant (step jobs op) := by
  cases op with
  | create jid now creator d => exact step_create_preserves jobs jid now creator d hn hinv hs
  | update jid now u => exact step_update_preserves jobs jid now u hn hinv hs
  | delete role jid => exact step_delete_preserves jobs role jid hn hinv

lemma execTrace_preserves (ops : List Op) : ∀ jobs : List Job,
    NodupIds jobs → dayInvariant jobs → SafeTrace jobs ops →
    NodupIds (execTrace jobs ops) ∧ dayInvariant (execTrace jobs ops) := by
  induction ops with
  | nil =>
    intro jobs hn hinv _
    exact ⟨hn, hinv⟩
  | cons op rest ih =>
    intro jobs hn hinv hst
    cases hst with
    | cons _ _ _ hop hrest =>
      have h1 := step_preserves jobs op hn hinv hop
      have h2 := ih (step jobs op) h1.1 h1.2 hrest
      simpa [execTrace, List.foldl_cons] using h2
/-- A first-stop creation request for 2024-06-01T10:00Z (instant
28620600 = 19875 days times 1440, plus 600 minutes). -/
def wFirstStopCreate : JobCreate :=
  { customer_name := "Acme"
    phone := "555"
    is_first_stop := true
    appointment_time := some ⟨28620600, 0⟩
    part_number := none
    distributor := none
    job_type := "windshield"
    status := "pending"
    assigned_to := none }

/-- A first-stop creation request with no appointment time. -/
def wFirstStopNoApt : JobCreate :=
  { wFirstStopCreate with appointment_time := none }

/-- An update that only sets the appointment time to 2024-06-01T10:00Z. -/
def wAptOnlyUpdate : JobUpdate :=
  { JobUpdate.empty with appointment_time := some ⟨28620600, 0⟩ }

/-- A request sequence every step of which the handlers accept, ending
with four first-stop jobs on 2024-06-01 (UTC): three checked
creations, a fourth first-stop creation with no appointment time (the
capacity check is skipped), and an appointment-time-only update on it
(the capacity check is skipped again because the flag is not flipped
from false to true). -/
def breakingOps : List Op :=
  [Op.create "j1" 0 "u" wFirstStopCreate,
   Op.create "j2" 0 "u" wFirstStopCreate,
   Op.create "j3" 0 "u" wFirstStopCreate,
   Op.create "j4" 0 "u" wFirstStopNoApt,
   Op.update "j4" 1 wAptOnlyUpdate]

/-- C2 counterexample: a five-request sequence from the empty
collection reaches a state with four `is_first_stop = true` jobs whose
appointment falls on the same UTC calendar day (2024-06-01), so the
claimed invariant does not hold in every reachable state. -/
theorem C2_counterexample :
    firstStopsOnUtcDay (execTrace [] breakingOps) 19875 = 4 ∧
      ¬ dayInvariant (execTrace [] breakingOps) := by
  refine ⟨by decide, fun h => ?_⟩
  have h1 := h 19875
  have h2 : firstStopsOnUtcDay (execTrace [] breakingOps) 19875 = 4 := by decide
  omega

/-- C2 (amended): the at-most-3-first-stops-per-UTC-day invariant holds
in every state reachable from the empty collection by sequentially
executed `create_job`, `update_job` and `delete_job` requests, provided
each request is conservative (`SafeOp`): creations use fresh ids, all
supplied appointment times carry UTC offset 0, and no update sets the
appointment time of a job currently marked as a first stop unless it
also turns the flag off. -/
theorem C2_day_cap_invariant (ops : List Op) (hst : SafeTrace [] ops) :
    dayInvariant (execTrace [] ops) :=
  (execTrace_preserves ops [] (by simp [NodupIds])
    (fun d => by simp [firstStopsOnUtcDay]) hst).2

/-- C2 witness: four first-stop creation requests for the same day (the
fourth is rejected by the capacity check) form a safe trace, and the
resulting state satisfies the daily cap. -/
theorem C2_day_cap_invariant_witness :
    dayInvariant (execTrace []
      [Op.create "j1" 0 "u" wFirstStopCreate,
       Op.create "j2" 0 "u" wFirstStopCreate,
       Op.create "j3" 0 "u" wFirstStopCreate,
       Op.create "j4" 0 "u" wFirstStopCreate]) := by
  apply C2_day_cap_invariant
  refine SafeTrace.cons _ _ _ ⟨?_, ?_⟩ (SafeTrace.cons _ _ _ ⟨?_, ?_⟩
    (SafeTrace.cons _ _ _ ⟨?_, ?_⟩ (SafeTrace.cons _ _ _ ⟨?_, ?_⟩
      (SafeTrace.nil _)))) <;> decide
/-- C1: a creation request marked as a first stop with an appointment
time on a day whose window already holds at least 3 first stops, and an
update request flipping `is_first_stop` from false to true whose
effective appointment day already holds at least 3 other first stops,
are both rejected with the capacity-exceeded error and leave the jobs
collection unchanged. -/
theorem C1_capacity_rejection :
    (∀ (jobs : List Job) (jid : String) (now : Int) (creator : String)
        (d : JobCreate) (apt : DT),
      d.is_first_stop = true → d.appointment_time = some apt →
      3 ≤ firstStopCountQuery jobs (dayStart apt) (dayEnd apt) →
      create_job jobs jid now creator d = Except.error ApiError.capacityExceeded ∧
        step jobs (Op.create jid now creator d) = jobs) ∧
    (∀ (jobs : List Job) (jid : String) (now : Int) (u : JobUpdate)
        (cur : Job) (apt : DT),
      jobs.find? (fun j => j.job_id == jid) = some cur →
      u.is_first_stop = some true → cur.is_first_stop = false →
      effApt u cur = some apt →
      3 ≤ firstStopCountExcl jobs (dayStart apt) (dayEnd apt) jid →
      update_job jobs jid now u = Except.error ApiError.capacityExceeded ∧
        step jobs (Op.update jid now u) = jobs) := by
  constructor
  · intro jobs jid now creator d apt hfs hapt hcnt
    have herr : create_job jobs jid now creator d = Except.error ApiError.capacityExceeded := by
      simp only [create_job, hfs, hapt]
      rw [if_pos hcnt]
    exact ⟨herr, by simp only [step, herr]⟩
  · intro jobs jid now u cur apt hfind hflag hcur happt hcnt
    have hemp : ¬ u = JobUpdate.empty := by
      intro he
      rw [he] at hflag
      exact Option.noConfusion hflag
    have herr : update_job jobs jid now u = Except.error ApiError.capacityExceeded := by
      unfold update_job
      rw [if_neg hemp]
      simp only [hfind]
      rw [if_pos (by simp [hflag, hcur, happt, hcnt])]
    exact ⟨herr, by simp only [step, herr]⟩

/-- A stored first-stop job on 2024-06-01T10:00Z. -/
def wStoredFS (jid : String) : Job :=
  { job_id := jid
    customer_name := "A"
    phone := "p"
    is_first_stop := true
    appointment_time := some 28620600
    part_number := none
    distributor := none
    job_type := "windshield"
    status := "pending"
    assigned_to := none
    created_by := "u"
    updated_at := 0 }

/-- A stored non-first-stop job on the same day. -/
def wStoredPlain : Job :=
  { wStoredFS "j4" with is_first_stop := false }

/-- Three stored first stops on 2024-06-01. -/
def wJobs3 : List Job := [wStoredFS "j1", wStoredFS "j2", wStoredFS "j3"]

/-- An update that only flips `is_first_stop` to true. -/
def wFlipUpdate : JobUpdate :=
  { JobUpdate.empty with is_first_stop := some true }

/-- C1 witness: with three first stops stored on 2024-06-01, creating a
fourth one for that day and flipping a fourth existing job on that day
to first stop are both rejected with the capacity error. -/
theorem C1_capacity_rejection_witness :
    create_job wJobs3 "j9" 0 "u" wFirstStopCreate
        = Except.error ApiError.capacityExceeded ∧
      update_job (wJobs3 ++ [wStoredPlain]) "j4" 0 wFlipUpdate
        = Except.error ApiError.capacityExceeded := by
  constructor
  · exact (C1_capacity_rejection.1 wJobs3 "j9" 0 "u" wFirstStopCreate
      ⟨28620600, 0⟩ rfl rfl (by decide)).1
  · exact (C1_capacity_rejection.2 (wJobs3 ++ [wStoredPlain]) "j4" 0 wFlipUpdate
      wStoredPlain ⟨28620600, 0⟩ (by decide) rfl rfl (by decide) (by decide)).1

/-- C6: an update request that does not flip `is_first_stop` from false
to true — whatever else it changes, including the appointment time of a
job already marked as a first stop — never performs the capacity check
and is never rejected with the capacity-exceeded error. -/
theorem C6_no_capacity_check_without_flip (jobs : List Job) (jid : String)
    (now : Int) (u : JobUpdate)
    (h : ∀ cur, jobs.find? (fun j => j.job_id == jid) = some cur →
      ¬(u.is_first_stop = some true ∧ cur.is_first_stop = false)) :
    update_job jobs jid now u ≠ Except.error ApiError.capacityExceeded := by
  unfold update_job
  by_cases hemp : u = JobUpdate.empty
  · rw [if_pos hemp]; simp
  rw [if_neg hemp]
  cases hfind : jobs.find? (fun j => j.job_id == jid) with
  | none => simp
  | some cur =>
    simp only
    have hcond : ((u.is_first_stop == some true) && !cur.is_first_stop) = false := by
      by_cases hf : u.is_first_stop = some true
      · have hc : cur.is_first_stop = true := by
          by_cases hc2 : cur.is_first_stop = true
          · exact hc2
          · exact absurd ⟨hf, by simpa using hc2⟩ (h cur hfind)
        simp [hc]
      · simp [hf]
    rw [hcond]
    simp
/-- C6 witness: with 2024-06-01 already at capacity (four stored first
stops), an appointment-time-only update of one of them is not rejected
with the capacity error. -/
theorem C6_no_capacity_check_without_flip_witness :
    update_job (wJobs3 ++ [wStoredFS "j4"]) "j4" 5 wAptOnlyUpdate ≠
      Except.error ApiError.capacityExceeded := by
  apply C6_no_capacity_check_without_flip
  intro cur hfind hand
  exact absurd hand.1 (by decide)

/-- C3 counterexample: for the input 2024-06-01T10:00 at offset +05:00
(instant 28620600, offset 300), the computed `day_start` is
2024-05-31T19:00Z, not the UTC midnight of the instant's UTC calendar
day (2024-06-01T00:00Z): the window depends on the attached offset. -/
theorem C3_counterexample :
    dayStart ⟨28620600, 300⟩ ≠ specDayStartUTC 28620600 := by decide

/-- C3 (amended): the capacity-check window is the calendar day of the
appointment in its *own* attached offset — `day_start` is the
wall-clock reading truncated to midnight, converted back to an instant,
and `day_end` is 24 hours later; only when the input carries UTC offset
0 does it coincide with UTC midnight of the instant's UTC day. -/
theorem C3_day_window (t : DT) :
    dayStart t = specDayStartUTC (wallClock t) - t.offset ∧
      dayEnd t = dayStart t + minutesPerDay ∧
      (t.offset = 0 →
        dayStart t = specDayStartUTC t.instant ∧
          dayEnd t = specDayStartUTC t.instant + minutesPerDay) := by
  refine ⟨by simp [dayStart, specDayStartUTC, utcDay, wallClock], rfl, ?_⟩
  intro h0
  constructor
  · exact dayStart_offsetZero t h0
  · show dayStart t + minutesPerDay = _
    rw [dayStart_offsetZero t h0]
    rfl

/-- C3 witness: for the UTC input 2024-06-01T10:00Z the window is
exactly the UTC day [2024-06-01T00:00Z, 2024-06-02T00:00Z). -/
theorem C3_day_window_witness :
    dayStart ⟨28620600, 0⟩ = specDayStartUTC 28620600 ∧
      dayEnd ⟨28620600, 0⟩ = specDayStartUTC 28620600 + minutesPerDay :=
  (C3_day_window ⟨28620600, 0⟩).2.2 rfl

/-- C9: `delete_job` succeeds only for an admin; any non-admin caller
is rejected with the forbidden error and the jobs collection is
unchanged. -/
theorem C9_delete_job_admin_only (jobs : List Job) (role jid : String) :
    ((∃ jobs2, delete_job jobs role jid = Except.ok jobs2) → role = "admin") ∧
      (role ≠ "admin" →
        delete_job jobs role jid = Except.error ApiError.forbidden ∧
          step jobs (Op.delete role jid) = jobs) := by
  constructor
  · rintro ⟨jobs2, hok⟩
    by_contra hr
    unfold delete_job at hok
    rw [if_pos hr] at hok
    exact Except.noConfusion hok
  · intro hr
    have herr : delete_job jobs role jid = Except.error ApiError.forbidden := by
      unfold delete_job
      rw [if_pos hr]
    exact ⟨herr, by simp only [step, herr]⟩

/-- C9 witness: a technician's deletion request is rejected as
forbidden and leaves the collection unchanged. -/
theorem C9_delete_job_admin_only_witness :
    delete_job wJobs3 "technician" "j1" = Except.error ApiError.forbidden ∧
      step wJobs3 (Op.delete "technician" "j1") = wJobs3 :=
  (C9_delete_job_admin_only wJobs3 "technician" "j1").2 (by decide)
/-- The count the specification describes for a fixed day window:
stored jobs with `is_first_stop = true` whose appointment instant lies
in the half-open interval from `lo` to `hi`. -/
def specFirstStopCount (jobs : List Job) (lo hi : Int) : Nat :=
  (jobs.filter (fun j =>
    j.is_first_stop &&
      (match j.appointment_time with
       | some i => decide (lo ≤ i ∧ i < hi)
       | none => false))).length

/-- C4: the first-stop count endpoint reports exactly the number of
stored first-stop jobs whose appointment lies in the day window of the
requested date, together with `max = 3` and `can_add` iff the count is
below 3. -/
theorem C4_first_stop_count_endpoint (jobs : List Job) (target_date : DT) :
    (get_first_stop_count jobs target_date).count
        = specFirstStopCount jobs (dayStart target_date) (dayEnd target_date) ∧
      (get_first_stop_count jobs target_date).max = 3 ∧
      ((get_first_stop_count jobs target_date).can_add = true ↔
        specFirstStopCount jobs (dayStart target_date) (dayEnd target_date) < 3) := by
  have hc : firstStopCountQuery jobs (dayStart target_date) (dayEnd target_date)
      = specFirstStopCount jobs (dayStart target_date) (dayEnd target_date) := by
    unfold firstStopCountQuery specFirstStopCount
    congr 1
    apply List.filter_congr
    intro j _
    cases ha : j.appointment_time with
    | none => simp [aptInRange]
    | some i =>
      rw [Bool.eq_iff_iff]
      simp [aptInRange, and_assoc]
  refine ⟨hc, rfl, ?_⟩
  show decide (firstStopCountQuery jobs (dayStart target_date) (dayEnd target_date) < 3) = true ↔ _
  rw [hc]
  simp

/-- C10: when a distributor exists, deleting it succeeds and every job
that referenced it has its `distributor` field set to none afterwards,
with every other field of every job unchanged (jobs not referencing it
are untouched). -/
theorem C10_delete_distributor_clears_refs (ds : List Distributor)
    (jobs : List Job) (did : String)
    (hmem : (ds.find? (fun d => d.distributor_id == did)).isSome) :
    ∃ p, delete_distributor ds jobs did = Except.ok p ∧
      p.2.length = jobs.length ∧
      ∀ n (h1 : n < jobs.length) (h2 : n < p.2.length),
        p.2.get ⟨n, h2⟩ =
          { jobs.get ⟨n, h1⟩ with
            distributor :=
              if (jobs.get ⟨n, h1⟩).distributor = some did then none
              else (jobs.get ⟨n, h1⟩).distributor } := by
  refine ⟨(ds.eraseP (fun d => d.distributor_id == did),
    jobs.map (fun j =>
      if j.distributor == some did then { j with distributor := none } else j)), ?_, ?_, ?_⟩
  · unfold delete_distributor
    rw [if_pos hmem]
  · simp
  · intro n h1 h2
    simp only [List.get_eq_getElem, List.getElem_map]
    by_cases hd : (jobs.get ⟨n, h1⟩).distributor = some did
    · simp only [List.get_eq_getElem] at hd
      simp [hd]
    · simp only [List.get_eq_getElem] at hd
      simp [hd]

/-- A distributor used by the C10 witness. -/
def wDist : Distributor := { distributor_id := "d1", name := "Pilkington" }

/-- Two stored jobs, one referencing distributor d1 and one not. -/
def wC10jobs : List Job :=
  [{ wStoredFS "j1" with distributor := some "d1" },
   { wStoredFS "j2" with distributor := some "d2" }]

/-- C10 witness: deleting distributor d1 succeeds on a concrete state
and rewrites exactly the referencing job. -/
theorem C10_delete_distributor_clears_refs_witness :
    ∃ p, delete_distributor [wDist] wC10jobs "d1" = Except.ok p ∧
      p.2.length = wC10jobs.length ∧
      ∀ n (h1 : n < wC10jobs.length) (h2 : n < p.2.length),
        p.2.get ⟨n, h2⟩ =
          { wC10jobs.get ⟨n, h1⟩ with
            distributor :=
              if (wC10jobs.get ⟨n, h1⟩).distributor = some "d1" then none
              else (wC10jobs.get ⟨n, h1⟩).distributor } :=
  C10_delete_distributor_clears_refs [wDist] wC10jobs "d1" (by decide)
/-- All jobs listed in the daily-parts response, buckets first, then
the unassigned list. -/
def flattenParts (r : DailyPartsResult) : List Job :=
  (r.by_distributor.map DistGroup.parts).flatten ++ r.unassigned

/-- All jobs held in an intermediate grouping accumulator. -/
def flattenGroups (acc : List (String × List Job) × List Job) : List Job :=
  (acc.1.map Prod.snd).flatten ++ acc.2

/-- The selection the claim literally states: non-cancelled, non-NULL
`part_number`, appointment date string equal to the target. -/
def claimPartPred (target : String) (j : Job) : Bool :=
  !(j.status == "cancelled") && j.part_number.isSome && matchesDateStr j target

/-- The selection the code implements: non-cancelled, *truthy* (non-null
and non-empty) `part_number`, appointment date string equal to the
target. -/
def specPartPred (target : String) (j : Job) : Bool :=
  !(j.status == "cancelled") && partTruthy j.part_number && matchesDateStr j target

lemma insertGroup_flatten (g : List (String × List Job)) (k : String) (j : Job) :
    ((insertGroup g k j).map Prod.snd).flatten.Perm
      ((g.map Prod.snd).flatten ++ [j]) := by
  induction g with
  | nil => simp [insertGroup]
  | cons hd tl ih =>
    obtain ⟨k2, js⟩ := hd
    by_cases hk : (k2 == k) = true
    · simp only [insertGroup, hk, if_true, List.map_cons, List.flatten_cons,
        List.append_assoc]
      exact List.Perm.append_left js List.perm_append_comm
    · have hk2 : (k2 == k) = false := by rwa [Bool.not_eq_true] at hk
      simp only [insertGroup, hk2, if_false, List.map_cons, List.flatten_cons,
        List.append_assoc]
      exact List.Perm.append_left js ih

lemma groupStep_flatten (acc : List (String × List Job) × List Job) (j : Job) :
    (flattenGroups (groupStep acc j)).Perm (flattenGroups acc ++ [j]) := by
  obtain ⟨g, u⟩ := acc
  cases hd : j.distributor with
  | none =>
    simp only [groupStep, hd, flattenGroups, List.append_assoc]
    exact List.Perm.refl _
  | some k =>
    simp only [groupStep, hd, flattenGroups]
    refine ((insertGroup_flatten g k j).append_right u).trans ?_
    simp only [List.append_assoc]
    exact List.Perm.append_left _ List.perm_append_comm

lemma foldl_groupStep_flatten (l : List Job) :
    ∀ acc, (flattenGroups (l.foldl groupStep acc)).Perm (flattenGroups acc ++ l) := by
  induction l with
  | nil =>
    intro acc
    simp only [List.foldl_nil, List.append_nil]
    exact List.Perm.refl _
  | cons j rest ih =>
    intro acc
    rw [List.foldl_cons]
    have h2 := (groupStep_flatten acc j).append_right rest
    have h3 : (flattenGroups acc ++ [j]) ++ rest = flattenGroups acc ++ (j :: rest) := by
      simp
    rw [h3] at h2
    exact (ih (groupStep acc j)).trans h2

lemma groupJobs_flatten (l : List Job) :
    (flattenGroups (groupJobs l)).Perm l := by
  have h := foldl_groupStep_flatten l ([], [])
  simpa [groupJobs, flattenGroups] using h
lemma daily_parts_filter_fused (jobs : List Job) (target : String) :
    ((jobs.filter dailyPartsQueryFilter).filter
        (fun j => matchesDateStr j target)).filter
        (fun j => partTruthy j.part_number)
      = jobs.filter (specPartPred target) := by
  rw [List.filter_filter, List.filter_filter]
  apply List.filter_congr
  intro j hj
  cases hp : j.part_number with
  | none => simp [specPartPred, dailyPartsQueryFilter, partTruthy, hp]
  | some s =>
    rw [Bool.eq_iff_iff]
    simp only [specPartPred, dailyPartsQueryFilter, partTruthy, hp,
      Option.isSome_some, Bool.and_eq_true, Bool.and_true, Bool.true_and]
    tauto

/-- C5 (amended): the daily parts aggregation returns exactly the
non-cancelled jobs with a *non-empty* `part_number` whose appointment
date string equals the target date — as a multiset, the distributor
buckets plus the unassigned bucket are a permutation of that
selection, so every such job lands in exactly one bucket — and the
bucket sizes plus the unassigned size add up to `total_parts`. -/
theorem C5_daily_parts_partition (jobs : List Job) (ds : List Distributor)
    (year month day : Nat) :
    (flattenParts (get_daily_parts jobs ds year month day)).Perm
        (jobs.filter (specPartPred (mkDateStr year month day))) ∧
      ((get_daily_parts jobs ds year month day).by_distributor.map
            (fun g => g.parts.length)).sum
          + (get_daily_parts jobs ds year month day).unassigned.length
        = (get_daily_parts jobs ds year month day).total_parts := by
  have hfused := daily_parts_filter_fused jobs (mkDateStr year month day)
  have hflat : flattenParts (get_daily_parts jobs ds year month day)
      = flattenGroups (groupJobs (((jobs.filter dailyPartsQueryFilter).filter
          (fun j => matchesDateStr j (mkDateStr year month day))).filter
          (fun j => partTruthy j.part_number))) := by
    simp only [get_daily_parts, flattenParts, flattenGroups, List.map_map]
    rfl
  have hperm : (flattenParts (get_daily_parts jobs ds year month day)).Perm
      (jobs.filter (specPartPred (mkDateStr year month day))) := by
    rw [hflat, ← hfused]
    exact groupJobs_flatten _
  refine ⟨hperm, ?_⟩
  have hlen := hperm.length_eq
  have htp : (get_daily_parts jobs ds year month day).total_parts
      = (jobs.filter (specPartPred (mkDateStr year month day))).length := by
    simp only [get_daily_parts]
    rw [← hfused]
  rw [htp, ← hlen]
  simp [flattenParts, List.length_flatten, List.map_map]
  rfl
/-- A non-cancelled job on 2024-06-01 whose `part_number` is the empty
string: non-null, but falsy in Python. -/
def wEmptyPartJob : Job :=
  { wStoredFS "j1" with is_first_stop := false, part_number := some "" }

/-- C5 counterexample: a job with `part_number = ""` satisfies the
claim's selection (non-cancelled, non-null part number, matching date)
but appears in no output bucket — the query keeps it (`part_number` is
non-null) while the bucket filter drops it (empty string is falsy), so
the response is not a partition of the claimed selection. -/
theorem C5_counterexample :
    ([wEmptyPartJob].filter (claimPartPred (mkDateStr 2024 6 1))).length = 1 ∧
      ¬ (flattenParts (get_daily_parts [wEmptyPartJob] [] 2024 6 1)).Perm
        ([wEmptyPartJob].filter (claimPartPred (mkDateStr 2024 6 1))) := by
  refine ⟨by decide, fun hperm => ?_⟩
  have hlen := hperm.length_eq
  have h0 : (flattenParts (get_daily_parts [wEmptyPartJob] [] 2024 6 1)).length = 0 := by
    decide
  have h1 : ([wEmptyPartJob].filter (claimPartPred (mkDateStr 2024 6 1))).length = 1 := by
    decide
  omega
lemma recipients_no_exclusion (users : List AuthUser) :
    users.filter (fun u =>
      match (none : Option String) with
      | some e => !(u.user_id == e)
      | none => true) = users := by
  show users.filter (fun _ => true) = users
  exact List.filter_true users

/-- A user with a registered push token. -/
def wUser : AuthUser :=
  { user_id := "u1"
    email := "ann@example.com"
    name := "Ann"
    role := "technician"
    push_token := some "ExponentPushTokenA" }

/-- A scheduled Katyshop job. -/
def wKJob : KatyshopJob :=
  { job_id := "k1"
    vehicle_year := "2020"
    vehicle_model := "Civic"
    part_number := "WS-100"
    status := "scheduled"
    created_by := "u1"
    updated_at := 0 }

/-- A Katyshop update that only sets the status to completed. -/
def wKComplete : KatyshopJobUpdate :=
  { vehicle_year := none, vehicle_model := none, status := some "completed" }

/-- C7 counterexample: completing a Katyshop job while the in-app
notification insertion fails (`insertOk = false`) still returns
success, with no notification stored — the insertion is wrapped in a
try/except that swallows the failure, so the request does not return
success only if the insertion succeeds. -/
theorem C7_counterexample :
    update_katyshop_job [wKJob] [] "k1" wKComplete 5 false true
      = Except.ok ([{ wKJob with status := "completed", updated_at := 5 }], []) := by
  rfl
lemma create_notif_spec (users : List AuthUser) (title body : String)
    (insertOk : Bool) :
    create_notification_for_all_users users title body none insertOk
      = (if users.isEmpty then
           Except.ok ([], users.filterMap AuthUser.push_token)
         else if insertOk then
           Except.ok (users.map (fun u => ⟨u.user_id, title, body, false⟩),
             users.filterMap AuthUser.push_token)
         else Except.error ApiError.internalError) := by
  unfold create_notification_for_all_users
  rw [recipients_no_exclusion]
  cases users with
  | nil => simp
  | cons a l => simp

/-- C7 (amended): on job creation the in-app notifications are inserted
synchronously and the request succeeds only if that insertion succeeds
(when there is at least one recipient), while the detached push
delivery's outcome never influences the response; on a Katyshop
completion the in-app insertion is attempted synchronously but its
failure — like any push failure — is swallowed and the request still
succeeds. -/
theorem C7_notification_delivery :
    (∀ (jobs : List Job) (users : List AuthUser) (notifs : List Notification)
        (jid : String) (now : Int) (creator : String) (d : JobCreate)
        (insertOk p1 p2 : Bool),
      createJobRequest jobs users notifs jid now creator d insertOk p1
        = createJobRequest jobs users notifs jid now creator d insertOk p2) ∧
    (∀ (jobs : List Job) (users : List AuthUser) (notifs : List Notification)
        (jid : String) (now : Int) (creator : String) (d : JobCreate) (p : Bool) r,
      users ≠ [] →
      createJobRequest jobs users notifs jid now creator d false p ≠ Except.ok r) ∧
    (∀ (jobs : List Job) (users : List AuthUser) (notifs : List Notification)
        (jid : String) (now : Int) (creator : String) (d : JobCreate)
        (insertOk p : Bool) (jobs2 : List Job) (notifs2 : List Notification),
      createJobRequest jobs users notifs jid now creator d insertOk p
          = Except.ok (jobs2, notifs2) →
      notifs2 = notifs ++ users.map
        (fun uu => ⟨uu.user_id, newJobTitle, newJobBody d, false⟩)) ∧
    (∀ (kjobs : List KatyshopJob) (notifs : List Notification) (jid : String)
        (u : KatyshopJobUpdate) (now : Int) (insertOk p1 p2 : Bool),
      update_katyshop_job kjobs notifs jid u now insertOk p1
        = update_katyshop_job kjobs notifs jid u now insertOk p2) ∧
    (∀ (kjobs : List KatyshopJob) (notifs : List Notification) (jid : String)
        (u : KatyshopJobUpdate) (now : Int) (p : Bool) (cur : KatyshopJob),
      kjobs.find? (fun j => j.job_id == jid) = some cur →
      update_katyshop_job kjobs notifs jid u now false p
        = Except.ok (updateFirst (fun j => j.job_id == jid)
            (applyKatyshopUpdate u now) kjobs, notifs)) := by
  refine ⟨fun _ _ _ _ _ _ _ _ _ _ => rfl, ?_, ?_, fun _ _ _ _ _ _ _ _ => rfl, ?_⟩
  · intro jobs users notifs jid now creator d p r hne
    unfold createJobRequest
    cases hc : create_job jobs jid now creator d with
    | error e => simp
    | ok jobs2 =>
      rw [create_notif_spec]
      have hne2 : users.isEmpty = false := by
        cases users with
        | nil => exact absurd rfl hne
        | cons a l => rfl
      rw [hne2]
      simp
  · intro jobs users notifs jid now creator d insertOk p jobs2 notifs2 hok
    unfold createJobRequest at hok
    cases hc : create_job jobs jid now creator d with
    | error e => rw [hc] at hok; exact absurd hok (by simp)
    | ok jobs3 =>
      rw [hc, create_notif_spec] at hok
      cases users with
      | nil =>
        simp at hok ⊢
        exact hok.2.symm
      | cons a l =>
        have hne2 : ((a :: l) : List AuthUser).isEmpty = false := rfl
        rw [hne2] at hok
        cases insertOk with
        | false => simp at hok
        | true =>
          simp at hok ⊢
          exact hok.2.symm
  · intro kjobs notifs jid u now p cur hfind
    unfold update_katyshop_job
    simp only [hfind]
    by_cases hc : (u.status == some "completed" && !(cur.status == "completed")) = true
    · simp [hc]
    · have hc2 : (u.status == some "completed" && !(cur.status == "completed")) = false := by
        rwa [Bool.not_eq_true] at hc
      simp [hc2]
/-- C7 witness: with one registered user, a failed in-app insertion
makes the create-job request fail (it cannot return success), while a
failed insertion on a Katyshop completion leaves the request
successful. -/
theorem C7_notification_delivery_witness :
    (createJobRequest [] [wUser] [] "j9" 0 "u" wFirstStopCreate false true ≠
        Except.ok ([], [])) ∧
      update_katyshop_job [wKJob] [] "k1" wKComplete 5 false true
        = Except.ok (updateFirst (fun j => j.job_id == "k1")
            (applyKatyshopUpdate wKComplete 5) [wKJob], []) :=
  ⟨C7_notification_delivery.2.1 [] [wUser] [] "j9" 0 "u" wFirstStopCreate true
      ([], []) (by simp),
   C7_notification_delivery.2.2.2.2 [wKJob] [] "k1" wKComplete 5 true wKJob
      (by decide)⟩

/-- C8: a request is rejected as not authenticated exactly when no
token is presented, no session carries the presented token, or the
matching session is expired — provided every stored session references
an existing user, which every reachable state satisfies (sessions are
only created together with their user and users are never deleted);
the rejection is the same `Not authenticated` error in all three
cases, and every session created at login expires exactly 7 days after
its creation instant. -/
theorem C8_auth (users : List AuthUser) (sessions : List Session)
    (tok : Option String) (now : Int)
    (href : sessionsRefUsers users sessions) :
    ((require_auth users sessions tok now
        = Except.error ApiError.notAuthenticated) ↔
      (tok = none ∨ ∃ t, tok = some t ∧
        (sessions.find? (fun s => s.session_token == t) = none ∨
          ∃ s, sessions.find? (fun s2 => s2.session_token == t) = some s ∧
            s.expires_at < now))) ∧
    (∀ e, require_auth users sessions tok now = Except.error e →
      e = ApiError.notAuthenticated) ∧
    (∀ (em nm tk fid : String) (n2 : Int) (s : Session),
      s ∈ (create_session users sessions em nm tk fid n2).2 →
      s ∈ sessions ∨ s.expires_at - s.created_at = sessionLifetime) := by
  refine ⟨?_, ?_, ?_⟩
  · cases tok with
    | none =>
      simp [require_auth, get_current_user]
    | some t =>
      cases hf : sessions.find? (fun s => s.session_token == t) with
      | none =>
        apply iff_of_true
        · simp [require_auth, get_current_user, hf]
        · exact Or.inr ⟨t, rfl, Or.inl hf⟩
      | some s =>
        by_cases hexp : s.expires_at < now
        · apply iff_of_true
          · simp [require_auth, get_current_user, hf, hexp]
          · exact Or.inr ⟨t, rfl, Or.inr ⟨s, hf, hexp⟩⟩
        · have hs : s ∈ sessions := List.mem_of_find?_eq_some hf
          obtain ⟨u, hu, hue⟩ := href s hs
          have hex : ∃ x ∈ users, (fun u2 => u2.user_id == s.user_id) x = true :=
            ⟨u, hu, by simp [hue]⟩
          have hfu : (users.find? (fun u2 => u2.user_id == s.user_id)).isSome :=
            List.find?_isSome.mpr hex
          obtain ⟨u2, hu2⟩ := Option.isSome_iff_exists.mp hfu
          apply iff_of_false
          · simp [require_auth, get_current_user, hf, hexp, hu2]
          · rintro (h | ⟨t2, ht2, h2⟩)
            · exact Option.noConfusion h
            · have ht : t2 = t := Option.some.inj ht2.symm
              subst ht
              rcases h2 with h2 | ⟨s2, hfs2, hexp2⟩
              · rw [hf] at h2; exact Option.noConfusion h2
              · rw [hf] at hfs2
                have : s2 = s := (Option.some.inj hfs2).symm
                subst this
                exact hexp hexp2
  · intro e he
    unfold require_auth at he
    cases hg : get_current_user users sessions tok now with
    | some u => rw [hg] at he; exact Except.noConfusion he
    | none => rw [hg] at he; exact (Except.error.inj he).symm
  · intro em nm tk fid n2 s hmem2
    unfold create_session at hmem2
    cases hfe : users.find? (fun u => u.email == em) with
    | some u =>
      rw [hfe] at hmem2
      simp only [List.mem_append, List.mem_singleton] at hmem2
      rcases hmem2 with h | h
      · exact Or.inl h
      · subst h; right; simp [sessionLifetime]
    | none =>
      rw [hfe] at hmem2
      simp only [List.mem_append, List.mem_singleton] at hmem2
      rcases hmem2 with h | h
      · exact Or.inl h
      · subst h; right; simp [sessionLifetime]
/-- A stored session for `wUser` that expires at instant 100. -/
def wSession : Session :=
  { user_id := "u1", session_token := "tokA", expires_at := 100, created_at := 0 }

/-- C8 witness: with one user and one session on file, presenting the
session's token after its expiry instant is rejected as not
authenticated. -/
theorem C8_auth_witness :
    require_auth [wUser] [wSession] (some "tokA") 200
      = Except.error ApiError.notAuthenticated :=
  (C8_auth [wUser] [wSession] (some "tokA") 200
      (by unfold sessionsRefUsers; decide)).1.mpr
    (Or.inr ⟨"tokA", rfl, Or.inr ⟨wSession, by decide, by decide⟩⟩)
lemma create_session_preserves_ref (users : List AuthUser)
    (sessions : List Session) (em nm tk fid : String) (now : Int)
    (href : sessionsRefUsers users sessions) :
    sessionsRefUsers (create_session users sessions em nm tk fid now).1
      (create_session users sessions em nm tk fid now).2 := by
  unfold create_session
  cases hfe : users.find? (fun u => u.email == em) with
  | some u =>
    intro s hs
    simp only [List.mem_append, List.mem_singleton] at hs
    rcases hs with h | h
    · exact href s h
    · subst h
      exact ⟨u, List.mem_of_find?_eq_some hfe, rfl⟩
  | none =>
    intro s hs
    simp only [List.mem_append, List.mem_singleton] at hs
    rcases hs with h | h
    · obtain ⟨u, hu, hue⟩ := href s h
      exact ⟨u, List.mem_append_left _ hu, hue⟩
    · subst h
      exact ⟨⟨fid, em, nm, "technician", none⟩,
        List.mem_append_right _ (List.mem_singleton.mpr rfl), rfl⟩
